import Mathlib

set_option autoImplicit false

namespace HiveSpoke

/- ### Host string primitives

The TypeScript code relies on JavaScript string operations: `trim`,
`split(/\s+/)`, `split("\n")`, `startsWith`.  They are modelled here over
`List Char` / `String` with JS semantics (`\s` whitespace class restricted
to its common members; `split(/\s+/)` keeps the empty token a leading or
trailing separator produces). -/

/-- Membership in the JavaScript `\s` character class (common members). -/
def isWs (c : Char) : Bool :=
  c = ' ' || c = '\t' || c = '\n' || c = '\r' || c = '\x0b' || c = '\x0c' || c = ' '

/-- Drop whitespace from both ends of a character list (JS `String.trim`). -/
def trimChars (cs : List Char) : List Char :=
  ((cs.dropWhile isWs).reverse.dropWhile isWs).reverse

/-- JS `s.trim()`. -/
def jsTrim (s : String) : String := String.mk (trimChars s.toList)

/-- Maximal runs of non-whitespace characters, in order. -/
def wsFieldsAux : List Char → List Char → List (List Char)
  | [], cur => if cur = [] then [] else [cur.reverse]
  | c :: cs, cur =>
    if isWs c then
      if cur = [] then wsFieldsAux cs []
      else cur.reverse :: wsFieldsAux cs []
    else wsFieldsAux cs (c :: cur)

/-- JS `s.split(/\s+/)`: the non-whitespace fields, plus an empty leading
(resp. trailing) token when the string starts (resp. ends) with whitespace,
and `[""]` on the empty string. -/
def jsSplitWs (s : String) : List String :=
  let cs := s.toList
  if cs = [] then [""]
  else
    (if isWs (cs.headD ' ') then [""] else []) ++
      (wsFieldsAux cs []).map String.mk ++
      (if isWs (cs.getLastD ' ') then [""] else [])

/-- Split a character list on a separator character, keeping empty pieces
(JS `s.split("\n")` semantics). -/
def splitCharAux (sep : Char) : List Char → List Char → List (List Char)
  | [], cur => [cur.reverse]
  | c :: cs, cur =>
    if c = sep then cur.reverse :: splitCharAux sep cs []
    else splitCharAux sep cs (c :: cur)

/-- Split a string into its `sep`-separated pieces. -/
def splitOnChar (sep : Char) (cs : List Char) : List (List Char) :=
  splitCharAux sep cs []

/-- JS `content.split("\n")`. -/
def splitLines (s : String) : List String :=
  (splitOnChar '\n' s.toList).map String.mk

/-- JS `s.startsWith(pat)`. -/
def listStarts : List Char → List Char → Bool
  | _, [] => true
  | [], _ :: _ => false
  | c :: cs, d :: ds => c = d && listStarts cs ds

/-- JS `s.startsWith(pat)` on strings. -/
def strStarts (s pat : String) : Bool := listStarts s.toList pat.toList

/- ### Association lists with JavaScript `Map` semantics -/

/-- First-match lookup in an association list (JS `Map.get`). -/
def alookup {α : Type} : List (String × α) → String → Option α
  | [], _ => none
  | p :: ps, k => if p.1 = k then some p.2 else alookup ps k

/-- JS `Map.set`: replace the value in place when the key is present,
append at the end otherwise. -/
def mapSet {α : Type} (m : List (String × α)) (k : String) (v : α) : List (String × α) :=
  if m.any (fun p => p.1 = k) then
    m.map (fun p => if p.1 = k then (k, v) else p)
  else
    m ++ [(k, v)]

/- ### Allowed-signers registry (src/commands/verify.ts, `parseAllowedSigners`) -/

/-- Registry entry for one signer: `email` (registry key), `keyType`, and the
reconstructed comparison key `publicKey = "<keyType> <keyData>"`. -/
structure AllowedSigner where
  email : String
  keyType : String
  publicKey : String
deriving DecidableEq, Repr

/-- Per-line logic of `parseAllowedSigners`: trim; skip blank lines and
`#`-comments; split on whitespace; require at least 3 tokens; destructure the
first three as `[email, keyType, publicKey]` and store
`fullKey = keyType ++ " " ++ publicKey`. -/
def parseSignerLine? (line : String) : Option (String × AllowedSigner) :=
  let trimmed := jsTrim line
  if trimmed.isEmpty then none
  else if strStarts trimmed "#" then none
  else
    match jsSplitWs trimmed with
    | email :: keyType :: publicKey :: _ =>
      some (email, ⟨email, keyType, keyType ++ " " ++ publicKey⟩)
    | _ => none

/-- One fold step of `parseAllowedSigners` over the lines of the file. -/
def sigStep (m : List (String × AllowedSigner)) (line : String) :
    List (String × AllowedSigner) :=
  match parseSignerLine? line with
  | some (k, v) => mapSet m k v
  | none => m

/-- The registry parser `parseAllowedSigners` of src/commands/verify.ts:
fold `Map.set` over the lines of the trust-anchor text. -/
def parseAllowedSigners (content : String) : List (String × AllowedSigner) :=
  (splitLines content).foldl sigStep []

/-- The well-formed entries of a trust-anchor text, one per well-formed line
in order, without the `Map` key-deduplication. -/
def wfEntries (content : String) : List (String × AllowedSigner) :=
  (splitLines content).filterMap parseSignerLine?

/- ### Key matching (src/commands/verify.ts, signer loop) -/

/-- Second-tier comparison: split both keys on whitespace and compare the
first two tokens (key type and key data); both splits must have at least two
tokens. -/
def keyTokensMatch (spokeKey signerKey : String) : Bool :=
  match jsSplitWs spokeKey, jsSplitWs signerKey with
  | a :: b :: _, c :: d :: _ => a = c && b = d
  | _, _ => false

/-- The signer loop of the verify command: iterate the registry in insertion
order; stop with `true` at the first entry whose reconstructed key is a
prefix of the spoke key, or whose first two whitespace-separated tokens equal
the spoke key's; `false` after exhausting the registry. -/
def findKeyMatch (spokeKey : String) : List (String × AllowedSigner) → Bool
  | [] => false
  | (_, signer) :: rest =>
    if strStarts spokeKey signer.publicKey then true
    else if keyTokensMatch spokeKey signer.publicKey then true
    else findKeyMatch spokeKey rest

/- ### Raw decoded values and schema violations

`Raw` models the structured value a YAML decode produces (the input of the
zod schemas).  Numbers are modelled as integers: every numeric constraint in
the schemas is integrality/non-negativity, so integer inputs carry the whole
behaviour the claims quantify over. -/

/-- Raw decoded YAML/JSON value. -/
inductive Raw where
  | str (s : String)
  | num (n : Int)
  | boolean (b : Bool)
  | null
  | arr (xs : List Raw)
  | obj (fields : List (String × Raw))

/-- One schema violation: the path of the offending field (joined with `"."`
for display, as in validate.ts `issue.path.join(".")`) and a message. -/
structure Violation where
  path : List String
  message : String
deriving DecidableEq, Repr

/-- Dotted rendering of a violation path (validate.ts `issue.path.join(".")`). -/
def dottedPath (v : Violation) : String := String.intercalate "." v.path

/-- Result of validating a (piece of a) document: the typed value, or the
collected list of violations. -/
abbrev Vres (α : Type) : Type := Except (List Violation) α

/-- Violations of a validation result (empty on success). -/
def errsOf {α : Type} : Vres α → List Violation
  | .ok _ => []
  | .error es => es

/-- Whether a validation result succeeded. -/
def vIsOk {α : Type} : Vres α → Bool
  | .ok _ => true
  | .error _ => false

/-- Prefix every violation's path with a field name. -/
def atPath (k : String) (es : List Violation) : List Violation :=
  es.map (fun v => { v with path := k :: v.path })

/-- Prefix the violations of a result with a field name. -/
def withPath {α : Type} (k : String) : Vres α → Vres α
  | .ok a => .ok a
  | .error es => .error (atPath k es)

/-- Validation product: succeed only when both parts succeed, and collect the
violations of BOTH failing parts (zod's non-short-circuiting object
validation). -/
def vpair {α β : Type} : Vres α → Vres β → Vres (α × β)
  | .ok a, .ok b => .ok (a, b)
  | .ok _, .error es => .error es
  | .error es, .ok _ => .error es
  | .error es, .error fs => .error (es ++ fs)

/-- Map over a successful validation result. -/
def vmap {α β : Type} (f : α → β) : Vres α → Vres β
  | .ok a => .ok (f a)
  | .error es => .error es

/-- Look a field up in a raw object (absent fields are `none`). -/
def getField (fields : List (String × Raw)) (k : String) : Option Raw :=
  alookup fields k

/-- Required object field: absent is a violation at the field's path;
otherwise run the field schema and tag its violations with the field name. -/
def reqField {α : Type} (fields : List (String × Raw)) (k : String)
    (p : Raw → Vres α) : Vres α :=
  match getField fields k with
  | none => .error [⟨[k], "Required"⟩]
  | some r => withPath k (p r)

/-- Optional object field (zod `.optional()`): absent is `none`. -/
def optField {α : Type} (fields : List (String × Raw)) (k : String)
    (p : Raw → Vres α) : Vres (Option α) :=
  match getField fields k with
  | none => .ok none
  | some r => withPath k (vmap some (p r))

/-- Defaulted object field (zod `.optional().default(d)`): absent yields the
default. -/
def defField {α : Type} (fields : List (String × Raw)) (k : String)
    (p : Raw → Vres α) (d : α) : Vres α :=
  match getField fields k with
  | none => .ok d
  | some r => withPath k (p r)

/- ### Base field schemas -/

/-- String with one attached check (models `z.string().min(1)`, `.regex`,
`.startsWith`, `.refine`, enums and literals, each of which attaches exactly
one check in these schemas). -/
def pStringCheck (check : String → Bool) (msg : String) : Raw → Vres String
  | .str s => if check s then .ok s else .error [⟨[], msg⟩]
  | _ => .error [⟨[], "Expected string"⟩]

/-- Unconstrained string (`z.string()`). -/
def pString : Raw → Vres String
  | .str s => .ok s
  | _ => .error [⟨[], "Expected string"⟩]

/-- Boolean (`z.boolean()`). -/
def pBoolean : Raw → Vres Bool
  | .boolean b => .ok b
  | _ => .error [⟨[], "Expected boolean"⟩]

/-- Non-negative integer (`z.number().int().nonnegative()`; the integrality
check cannot fail on integer-modelled numbers). -/
def pNonnegInt : Raw → Vres Int
  | .num n =>
    if 0 ≤ n then .ok n
    else .error [⟨[], "Number must be greater than or equal to 0"⟩]
  | _ => .error [⟨[], "Expected number"⟩]

/-- Array of elements (`z.array(p)`): validate every element, tagging its
violations with its index, and collect the violations of all failing
elements. -/
def pElems {α : Type} (p : Raw → Vres α) : Nat → List Raw → Vres (List α)
  | _, [] => .ok []
  | i, x :: xs =>
    vmap (fun ab => ab.1 :: ab.2)
      (vpair (withPath (toString i) (p x)) (pElems p (i + 1) xs))

/-- Array schema (`z.array(p)`). -/
def pArr {α : Type} (p : Raw → Vres α) : Raw → Vres (List α)
  | .arr xs => pElems p 0 xs
  | _ => .error [⟨[], "Expected array"⟩]

/- ### Shape checks (the regexes of the schemas) -/

/-- JS `\w` character class: `[A-Za-z0-9_]`. -/
def isWordChar (c : Char) : Bool := c.isAlphanum || c = '_'

/-- The `/^[\w-]+\/[\w.-]+$/` shape of `hub` (and `hive`): `owner/repo`. -/
def hubShape (s : String) : Bool :=
  match splitOnChar '/' s.toList with
  | [a, b] =>
    !a.isEmpty && a.all (fun c => isWordChar c || c = '-') &&
      !b.isEmpty && b.all (fun c => isWordChar c || c = '.' || c = '-')
  | _ => false

/-- The `/^[a-zA-Z0-9-]+$/` shape of `maintainer`. -/
def maintainerShape (s : String) : Bool :=
  !s.isEmpty && s.toList.all (fun c => c.isAlphanum || c = '-')

/-- The `/^SHA256:[A-Za-z0-9+/=]+$/` shape of fingerprints. -/
def fingerprintShape (s : String) : Bool :=
  let cs := s.toList
  listStarts cs "SHA256:".toList &&
    !(cs.drop 7).isEmpty &&
    (cs.drop 7).all (fun c => c.isAlphanum || c = '+' || c = '/' || c = '=')

/-- The `.startsWith("ssh-ed25519 ")` constraint on public keys. -/
def edKeyShape (s : String) : Bool := strStarts s "ssh-ed25519 "

/-- Non-empty string check (`z.string().min(1)`). -/
def min1 (s : String) : Bool := 1 ≤ s.length

/- ### Document model (typed outputs of the schemas) -/

/-- The fixed accepted-license set of the Manifest schema. -/
def ACCEPTED_LICENSES : List String :=
  ["MIT", "Apache-2.0", "BSD-2-Clause", "BSD-3-Clause", "CC-BY-4.0", "AGPL-3.0"]

/-- The fixed lifecycle phase set of the Status schema. -/
def LIFECYCLE_PHASES : List String :=
  ["specify", "build", "harden", "contrib-prep", "review", "shipped", "evolving"]

/-- Security reflex flags (defaults all `false`). -/
structure Reflexes where
  signing : Bool
  secretScanning : Bool
  sandboxEnforcer : Bool
  contentFilter : Bool
deriving DecidableEq, Repr

/-- Manifest `security` sub-object. -/
structure ManifestSecurity where
  reflexes : Reflexes
deriving DecidableEq, Repr

/-- Manifest `identity` sub-object. -/
structure ManifestIdentity where
  handle : String
  publicKey : String
  fingerprint : Option String
deriving DecidableEq, Repr

/-- Manifest `status` sub-object (opaque command strings). -/
structure ManifestStatusCfg where
  test : Option String
  healthCheck : Option String
deriving DecidableEq, Repr

/-- A schema-validated Manifest document. -/
structure Manifest where
  schemaVersion : String
  name : String
  hub : String
  project : String
  maintainer : String
  license : String
  identity : ManifestIdentity
  security : ManifestSecurity
  statusCfg : Option ManifestStatusCfg
deriving DecidableEq, Repr

/-- Status `tests` counters. -/
structure TestCounts where
  passing : Int
  failing : Int
deriving DecidableEq, Repr

/-- Status `git` snapshot. -/
structure GitSnapshot where
  branch : String
  lastCommit : String
  dirty : Bool
  behindRemote : Int
deriving DecidableEq, Repr

/-- A schema-validated Status document. -/
structure SpokeStatus where
  schemaVersion : String
  generatedAt : String
  generatedBy : String
  phase : String
  tests : TestCounts
  git : GitSnapshot
deriving DecidableEq, Repr

/-- Operator `signing` sub-object. -/
structure OperatorSigning where
  publicKey : String
  fingerprint : Option String
deriving DecidableEq, Repr

/-- Operator provider-identity entry. -/
structure IdentityEntry where
  provider : String
  id : String
  verified : Bool
  verified_at : Option String
deriving DecidableEq, Repr

/-- Operator hive-membership entry (Tier 2). -/
structure HiveEntry where
  hive : String
  role : Option String
  trust_zone : Option String
  identity_provider : Option String
  joined : Option String
  contributions : Option Int
  reviews : Option Int
  swarms : Option Int
deriving DecidableEq, Repr

/-- A schema-validated Operator document (Tier 1 merged with Tier 2). -/
structure Operator where
  schemaVersion : String
  handle : String
  name : Option String
  signing : OperatorSigning
  identities : List IdentityEntry
  skills : List String
  availability : String
  hives : List HiveEntry
deriving DecidableEq, Repr

/- ### Manifest schema (src/schemas/manifest.ts) -/

/-- Enum error message of the `license` field. -/
def licenseMsg : String :=
  "License must be one of: " ++ String.intercalate ", " ACCEPTED_LICENSES

/-- Reflexes sub-schema: four booleans, each defaulting to `false`. -/
def pReflexes : Raw → Vres Reflexes
  | .obj fs =>
    vmap (fun x => ⟨x.1.1.1, x.1.1.2, x.1.2, x.2⟩)
      (vpair
        (vpair
          (vpair (defField fs "signing" pBoolean false)
            (defField fs "secretScanning" pBoolean false))
          (defField fs "sandboxEnforcer" pBoolean false))
        (defField fs "contentFilter" pBoolean false))
  | _ => .error [⟨[], "Expected object"⟩]

/-- Security sub-schema: `reflexes` defaults to all-false. -/
def pSecurity : Raw → Vres ManifestSecurity
  | .obj fs =>
    vmap ManifestSecurity.mk
      (defField fs "reflexes" pReflexes ⟨false, false, false, false⟩)
  | _ => .error [⟨[], "Expected object"⟩]

/-- Identity sub-schema: non-empty `handle`, Ed25519-prefixed `publicKey`,
optional SHA256-shaped `fingerprint`. -/
def pIdentity : Raw → Vres ManifestIdentity
  | .obj fs =>
    vmap (fun x => ⟨x.1.1, x.1.2, x.2⟩)
      (vpair
        (vpair (reqField fs "handle" (pStringCheck min1 "Identity handle is required"))
          (reqField fs "publicKey"
            (pStringCheck edKeyShape "Public key must be an Ed25519 SSH key")))
        (optField fs "fingerprint"
          (pStringCheck fingerprintShape "Fingerprint must be SHA256 format")))
  | _ => .error [⟨[], "Expected object"⟩]

/-- Manifest `status` sub-schema: optional non-empty command strings. -/
def pStatusCfg : Raw → Vres ManifestStatusCfg
  | .obj fs =>
    vmap (fun x => ⟨x.1, x.2⟩)
      (vpair (optField fs "test" (pStringCheck min1 "String must contain at least 1 character(s)"))
        (optField fs "healthCheck" (pStringCheck min1 "String must contain at least 1 character(s)")))
  | _ => .error [⟨[], "Expected object"⟩]

/-- The Manifest schema `ManifestSchema.parse`, collecting all field
violations. -/
def pManifest : Raw → Vres Manifest
  | .obj fs =>
    vmap
      (fun x =>
        { schemaVersion := x.1.1.1.1.1.1.1.1
          name := x.1.1.1.1.1.1.1.2
          hub := x.1.1.1.1.1.1.2
          project := x.1.1.1.1.1.2
          maintainer := x.1.1.1.1.2
          license := x.1.1.1.2
          identity := x.1.1.2
          security := x.1.2
          statusCfg := x.2 })
      (vpair
        (vpair
          (vpair
            (vpair
              (vpair
                (vpair
                  (vpair
                    (vpair
                      (reqField fs "schemaVersion"
                        (pStringCheck (fun s => s = "1.0") "Invalid literal value, expected \"1.0\""))
                      (reqField fs "name" (pStringCheck min1 "Project name is required")))
                    (reqField fs "hub" (pStringCheck hubShape "Hub must be in org/repo format")))
                  (reqField fs "project" (pStringCheck min1 "Project identifier is required")))
                (reqField fs "maintainer"
                  (pStringCheck maintainerShape "Maintainer must be a valid GitHub handle")))
              (reqField fs "license"
                (pStringCheck (fun s => s ∈ ACCEPTED_LICENSES) licenseMsg)))
            (reqField fs "identity" pIdentity))
          (defField fs "security" pSecurity ⟨⟨false, false, false, false⟩⟩))
        (optField fs "status" pStatusCfg))
  | _ => .error [⟨[], "Expected object"⟩]

/- ### Status schema (src/schemas/status.ts)

Date parsing is the host's: a string is date-valid iff the injected parser
`dp` returns an instant for it (`Date.parse` returning non-NaN).  The same
`dp` is used by the staleness computation. -/

/-- Enum error message of the `phase` field. -/
def phaseMsg : String :=
  "Phase must be one of: " ++ String.intercalate ", " LIFECYCLE_PHASES

/-- Tests sub-schema: non-negative `passing` and `failing`. -/
def pTests : Raw → Vres TestCounts
  | .obj fs =>
    vmap (fun x => ⟨x.1, x.2⟩)
      (vpair (reqField fs "passing" pNonnegInt) (reqField fs "failing" pNonnegInt))
  | _ => .error [⟨[], "Expected object"⟩]

/-- Git sub-schema: non-empty `branch`, date-valid `lastCommit`, boolean
`dirty`, non-negative `behindRemote`. -/
def pGit (dp : String → Option Int) : Raw → Vres GitSnapshot
  | .obj fs =>
    vmap (fun x => ⟨x.1.1.1, x.1.1.2, x.1.2, x.2⟩)
      (vpair
        (vpair
          (vpair (reqField fs "branch" (pStringCheck min1 "Branch name is required"))
            (reqField fs "lastCommit"
              (pStringCheck (fun s => (dp s).isSome) "lastCommit must be a valid date")))
          (reqField fs "dirty" pBoolean))
        (reqField fs "behindRemote" pNonnegInt))
  | _ => .error [⟨[], "Expected object"⟩]

/-- The Status schema `StatusSchema.parse`, collecting all field violations. -/
def pStatus (dp : String → Option Int) : Raw → Vres SpokeStatus
  | .obj fs =>
    vmap
      (fun x =>
        { schemaVersion := x.1.1.1.1.1
          generatedAt := x.1.1.1.1.2
          generatedBy := x.1.1.1.2
          phase := x.1.1.2
          tests := x.1.2
          git := x.2 })
      (vpair
        (vpair
          (vpair
            (vpair
              (vpair
                (reqField fs "schemaVersion"
                  (pStringCheck (fun s => s = "1.0") "Invalid literal value, expected \"1.0\""))
                (reqField fs "generatedAt"
                  (pStringCheck (fun s => (dp s).isSome)
                    "generatedAt must be a valid ISO 8601 timestamp")))
              (reqField fs "generatedBy" (pStringCheck min1 "generatedBy is required")))
            (reqField fs "phase" (pStringCheck (fun s => s ∈ LIFECYCLE_PHASES) phaseMsg)))
          (reqField fs "tests" pTests))
        (reqField fs "git" (pGit dp)))
  | _ => .error [⟨[], "Expected object"⟩]

/- ### Operator schema (src/schemas/operator.ts) -/

/-- Identity-entry sub-schema. -/
def pIdentityEntry (dp : String → Option Int) : Raw → Vres IdentityEntry
  | .obj fs =>
    vmap (fun x => ⟨x.1.1.1, x.1.1.2, x.1.2, x.2⟩)
      (vpair
        (vpair
          (vpair (reqField fs "provider" (pStringCheck min1 "String must contain at least 1 character(s)"))
            (reqField fs "id" (pStringCheck min1 "String must contain at least 1 character(s)")))
          (reqField fs "verified" pBoolean))
        (optField fs "verified_at"
          (pStringCheck (fun s => (dp s).isSome) "Must be valid ISO 8601")))
  | _ => .error [⟨[], "Expected object"⟩]

/-- Hive-entry sub-schema (Tier 2). -/
def pHiveEntry (dp : String → Option Int) : Raw → Vres HiveEntry
  | .obj fs =>
    vmap
      (fun x =>
        { hive := x.1.1.1.1.1.1.1
          role := x.1.1.1.1.1.1.2
          trust_zone := x.1.1.1.1.1.2
          identity_provider := x.1.1.1.1.2
          joined := x.1.1.1.2
          contributions := x.1.1.2
          reviews := x.1.2
          swarms := x.2 })
      (vpair
        (vpair
          (vpair
            (vpair
              (vpair
                (vpair
                  (vpair (reqField fs "hive" (pStringCheck hubShape "Hive must be in org/repo format"))
                    (optField fs "role"
                      (pStringCheck (fun s => s ∈ ["contributor", "reviewer", "maintainer"])
                        "Invalid enum value")))
                  (optField fs "trust_zone"
                    (pStringCheck (fun s => s ∈ ["untrusted", "trusted", "maintainer"])
                      "Invalid enum value")))
                (optField fs "identity_provider" pString))
              (optField fs "joined"
                (pStringCheck (fun s => (dp s).isSome) "Must be valid ISO 8601")))
            (optField fs "contributions" pNonnegInt))
          (optField fs "reviews" pNonnegInt))
        (optField fs "swarms" pNonnegInt))
  | _ => .error [⟨[], "Expected object"⟩]

/-- Operator `signing` sub-schema. -/
def pOperatorSigning : Raw → Vres OperatorSigning
  | .obj fs =>
    vmap (fun x => ⟨x.1, x.2⟩)
      (vpair
        (reqField fs "publicKey" (pStringCheck edKeyShape "Must be an Ed25519 SSH key"))
        (optField fs "fingerprint" (pStringCheck fingerprintShape "Must be SHA256 format")))
  | _ => .error [⟨[], "Expected object"⟩]

/-- The Operator schema `OperatorSchema.parse` (Tier 1 merged with Tier 2),
collecting all field violations. -/
def pOperator (dp : String → Option Int) : Raw → Vres Operator
  | .obj fs =>
    vmap
      (fun x =>
        { schemaVersion := x.1.1.1.1.1.1.1
          handle := x.1.1.1.1.1.1.2
          name := x.1.1.1.1.1.2
          signing := x.1.1.1.1.2
          identities := x.1.1.1.2
          skills := x.1.1.2
          availability := x.1.2
          hives := x.2 })
      (vpair
        (vpair
          (vpair
            (vpair
              (vpair
                (vpair
                  (vpair
                    (reqField fs "schemaVersion"
                      (pStringCheck (fun s => s = "1.0") "Invalid literal value, expected \"1.0\""))
                    (reqField fs "handle" (pStringCheck min1 "Handle is required")))
                  (optField fs "name" pString))
                (reqField fs "signing" pOperatorSigning))
              (defField fs "identities" (pArr (pIdentityEntry dp)) []))
            (defField fs "skills" (pArr pString) []))
          (defField fs "availability"
            (pStringCheck (fun s => s ∈ ["open", "busy", "offline"]) "Invalid enum value") "open"))
        (defField fs "hives" (pArr (pHiveEntry dp)) []))
  | _ => .error [⟨[], "Expected object"⟩]

/- ### Cross-file consistency checker (src/commands/validate.ts, `validateCrossFile`) -/

/-- Accumulated validation errors and warnings. -/
structure ValidationResult where
  errors : List String
  warnings : List String
deriving DecidableEq, Repr

/-- Handle-mismatch error message. -/
def handleMismatchMsg (mh oh : String) : String :=
  "Handle mismatch: manifest \"" ++ mh ++ "\" vs operator \"" ++ oh ++ "\""

/-- Key-mismatch error message. -/
def keyMismatchMsg : String :=
  "Public key mismatch between manifest.yaml and operator.yaml"

/-- The cross-file consistency checker: skip when either document is missing;
otherwise check handle equality then public-key equality, pushing an error
for each mismatch. -/
def validateCrossFile (manifest : Option Manifest) (operator : Option Operator)
    (results : ValidationResult) : ValidationResult :=
  match manifest with
  | none => results
  | some m =>
    match operator with
    | none => results
    | some o =>
      let afterHandle :=
        if m.identity.handle = o.handle then results
        else { results with
               errors := results.errors ++ [handleMismatchMsg m.identity.handle o.handle] }
      if m.identity.publicKey = o.signing.publicKey then afterHandle
      else { afterHandle with errors := afterHandle.errors ++ [keyMismatchMsg] }

/- ### Per-spoke trust verification (src/commands/verify.ts, verify action) -/

/-- Verify result for one spoke. -/
structure VerifyResult where
  project : String
  handle : String
  fingerprint : Option String
  inAllowedSigners : Bool
  keyMatch : Bool
  issues : List String
deriving DecidableEq, Repr

/-- Issue emitted when the spoke key matches no registry entry. -/
def keyNotInSignersIssue : String :=
  "Public key NOT in allowed-signers — operator is not registered on hub"

/-- Issue emitted when the Manifest carries no fingerprint. -/
def noFingerprintIssue : String :=
  "No fingerprint in manifest — cannot verify key binding"

/-- Per-spoke verification of a schema-valid Manifest: run the signer loop,
then push the no-match issue and the no-fingerprint issue as applicable. -/
def verifySpoke (signers : List (String × AllowedSigner)) (project : String)
    (manifest : Manifest) : VerifyResult :=
  let spokeKey := manifest.identity.publicKey
  let spokeFingerprint := manifest.identity.fingerprint
  let matched := findKeyMatch spokeKey signers
  let issues :=
    (if matched = false then [keyNotInSignersIssue] else []) ++
      (if spokeFingerprint = none then [noFingerprintIssue] else [])
  { project := project
    handle := manifest.identity.handle
    fingerprint := spokeFingerprint
    inAllowedSigners := matched
    keyMatch := matched
    issues := issues }

/-- Number of verified spokes: those whose issue list is empty. -/
def verifiedCount (rs : List VerifyResult) : Nat :=
  (rs.filter (fun r => r.issues.isEmpty)).length

/-- Number of unverified spokes: the rest. -/
def unverifiedCount (rs : List VerifyResult) : Nat :=
  rs.length - verifiedCount rs

/- ### Staleness and aggregation engine (src/commands/pull.ts) -/

/-- The staleness predicate `isStale`: a Status is stale when the elapsed
time since its generation strictly exceeds the threshold (default 7 days in
milliseconds).  `dp` is the host date parser; an unparseable timestamp gives
NaN in JS, and every NaN comparison is false. -/
def isStale (dp : String → Option Int) (generatedAt : String) (nowMs : Int)
    (thresholdDays : Int := 7) : Bool :=
  match dp generatedAt with
  | some t => decide (nowMs - t > thresholdDays * 24 * 60 * 60 * 1000)
  | none => false

/-- Aggregated per-spoke entry (pull command): Manifest fields plus Status
fields or their defaults. -/
structure SpokeEntry where
  project : String
  maintainer : String
  phase : String
  tests : TestCounts
  dirty : Bool
  behindRemote : Int
  lastCommit : String
  generatedAt : String
  license : String
  reflexes : Reflexes
  stale : Bool
deriving DecidableEq, Repr

/-- Build one SpokeEntry from a validated Manifest and an optional validated
Status, applying the `??` defaults of the pull command for an absent
Status. -/
def mkSpokeEntry (dp : String → Option Int) (nowMs : Int) (manifest : Manifest)
    (status? : Option SpokeStatus) : SpokeEntry :=
  { project := manifest.project
    maintainer := manifest.maintainer
    phase := (status?.map (fun st => st.phase)).getD "unknown"
    tests := (status?.map (fun st => st.tests)).getD ⟨0, 0⟩
    dirty := (status?.map (fun st => st.git.dirty)).getD false
    behindRemote := (status?.map (fun st => st.git.behindRemote)).getD 0
    lastCommit := (status?.map (fun st => st.git.lastCommit)).getD "unknown"
    generatedAt := (status?.map (fun st => st.generatedAt)).getD "never"
    license := manifest.license
    reflexes := manifest.security.reflexes
    stale :=
      match status? with
      | some st => isStale dp st.generatedAt nowMs
      | none => true }

/-- Retrieval state of one spoke before processing: whether the manifest and
status documents exist, and the outcome of decoding each existing document
to a raw value (`Except` models a throwing YAML load). -/
structure SpokeSource where
  project : String
  hasManifestFile : Bool
  manifestRaw : Except String Raw
  hasStatusFile : Bool
  statusRaw : Except String Raw

/-- Outcome of processing one spoke during aggregation. -/
inductive SpokeOutcome where
  | noCollab
  | failure (project : String)
  | entry (e : SpokeEntry)
deriving DecidableEq, Repr

/-- The entry an outcome contributes to the aggregation list, if any. -/
def entryOf? : SpokeOutcome → Option SpokeEntry
  | .entry e => some e
  | _ => none

/-- The recorded failure of an outcome, if any. -/
def failureOf? : SpokeOutcome → Option String
  | .failure p => some p
  | _ => none

/-- Whether an outcome is the no-declaration case. -/
def isNoCollab : SpokeOutcome → Bool
  | .noCollab => true
  | _ => false

/-- Per-spoke body of the pull loop: skip spokes without a manifest file;
load and schema-validate the manifest; load and schema-validate the status
when its file exists; any decode or schema failure inside the try block
records a per-spoke failure; otherwise build the SpokeEntry. -/
def processSpoke (dp : String → Option Int) (nowMs : Int) (sp : SpokeSource) :
    SpokeOutcome :=
  if sp.hasManifestFile = false then .noCollab
  else
    match sp.manifestRaw with
    | .error _ => .failure sp.project
    | .ok rawManifest =>
      match pManifest rawManifest with
      | .error _ => .failure sp.project
      | .ok manifest =>
        if sp.hasStatusFile then
          match sp.statusRaw with
          | .error _ => .failure sp.project
          | .ok rawStatus =>
            match pStatus dp rawStatus with
            | .error _ => .failure sp.project
            | .ok st => .entry (mkSpokeEntry dp nowMs manifest (some st))
        else .entry (mkSpokeEntry dp nowMs manifest none)

/-- Aggregation run result: the entry list, the fleet counters, and the
per-spoke failure log. -/
structure PullSummary where
  spokes : List SpokeEntry
  withCollab : Nat
  withoutCollab : Nat
  failures : List String
deriving DecidableEq, Repr

/-- One fold step of the pull loop over the spoke outcomes. -/
def pullStep (dp : String → Option Int) (nowMs : Int) (acc : PullSummary)
    (sp : SpokeSource) : PullSummary :=
  match processSpoke dp nowMs sp with
  | .noCollab => { acc with withoutCollab := acc.withoutCollab + 1 }
  | .failure p =>
    { acc with withCollab := acc.withCollab + 1, failures := acc.failures ++ [p] }
  | .entry e =>
    { acc with withCollab := acc.withCollab + 1, spokes := acc.spokes ++ [e] }

/-- The aggregation run: process every spoke in order, accumulating entries,
counters and failures; no failure aborts the fold. -/
def runPull (dp : String → Option Int) (nowMs : Int)
    (sources : List SpokeSource) : PullSummary :=
  sources.foldl (pullStep dp nowMs) ⟨[], 0, 0, []⟩

/- ### Concrete fixtures used by witnesses and counterexamples -/

/-- A host date parser for concrete runs: every timestamp parses to 0 ms. -/
def dp0 : String → Option Int := fun _ => some 0

/-- Raw value of a minimal schema-valid Manifest. -/
def m1raw : Raw :=
  Raw.obj
    [("schemaVersion", Raw.str "1.0"), ("name", Raw.str "s1"),
     ("hub", Raw.str "org/hub"), ("project", Raw.str "s1"),
     ("maintainer", Raw.str "alice"), ("license", Raw.str "MIT"),
     ("identity",
      Raw.obj [("handle", Raw.str "alice"), ("publicKey", Raw.str "ssh-ed25519 AAAA1")])]

/-- The typed document `m1raw` validates to. -/
def m1 : Manifest :=
  { schemaVersion := "1.0", name := "s1", hub := "org/hub", project := "s1",
    maintainer := "alice", license := "MIT",
    identity := { handle := "alice", publicKey := "ssh-ed25519 AAAA1", fingerprint := none },
    security := ⟨⟨false, false, false, false⟩⟩, statusCfg := none }

/-- Raw value of a second schema-valid Manifest. -/
def m3raw : Raw :=
  Raw.obj
    [("schemaVersion", Raw.str "1.0"), ("name", Raw.str "s3"),
     ("hub", Raw.str "org/hub"), ("project", Raw.str "s3"),
     ("maintainer", Raw.str "carol"), ("license", Raw.str "MIT"),
     ("identity",
      Raw.obj [("handle", Raw.str "carol"), ("publicKey", Raw.str "ssh-ed25519 AAAA3")])]

/-- Spoke 1: valid manifest, no status document. -/
def src1 : SpokeSource :=
  { project := "s1", hasManifestFile := true, manifestRaw := .ok m1raw,
    hasStatusFile := false, statusRaw := .error "absent" }

/-- Spoke 2: manifest document present but undecodable. -/
def src2 : SpokeSource :=
  { project := "s2", hasManifestFile := true, manifestRaw := .error "unparseable",
    hasStatusFile := false, statusRaw := .error "absent" }

/-- Spoke 3: valid manifest, no status document. -/
def src3 : SpokeSource :=
  { project := "s3", hasManifestFile := true, manifestRaw := .ok m3raw,
    hasStatusFile := false, statusRaw := .error "absent" }

/-- Spoke 4: valid manifest, status document present but not schema-valid. -/
def src4 : SpokeSource :=
  { project := "s4", hasManifestFile := true, manifestRaw := .ok m1raw,
    hasStatusFile := true, statusRaw := .ok (Raw.str "nope") }

/-- Expected aggregation entry of spoke 1. -/
def entry1 : SpokeEntry :=
  { project := "s1", maintainer := "alice", phase := "unknown", tests := ⟨0, 0⟩,
    dirty := false, behindRemote := 0, lastCommit := "unknown",
    generatedAt := "never", license := "MIT",
    reflexes := ⟨false, false, false, false⟩, stale := true }

/-- Expected aggregation entry of spoke 3. -/
def entry3 : SpokeEntry :=
  { project := "s3", maintainer := "carol", phase := "unknown", tests := ⟨0, 0⟩,
    dirty := false, behindRemote := 0, lastCommit := "unknown",
    generatedAt := "never", license := "MIT",
    reflexes := ⟨false, false, false, false⟩, stale := true }

/-- Registry parser that follows the words of the parsing claim: the stored
key data is ALL tokens from the third onward rejoined with single spaces
(the source instead keeps only the third token). -/
def specRegistryLineJoined? (line : String) : Option (String × AllowedSigner) :=
  let trimmed := jsTrim line
  if trimmed.isEmpty then none
  else if strStarts trimmed "#" then none
  else
    match jsSplitWs trimmed with
    | email :: keyType :: keyData :: rest =>
      some (email,
        ⟨email, keyType, keyType ++ " " ++ String.intercalate " " (keyData :: rest)⟩)
    | _ => none

/-- Whole-text registry parser following the claim's words. -/
def specParseRegistryJoined (content : String) : List (String × AllowedSigner) :=
  (splitLines content).filterMap specRegistryLineJoined?

/-- Spoke 5: manifest document decodes but is not schema-valid. -/
def src5 : SpokeSource :=
  { project := "s5", hasManifestFile := true, manifestRaw := .ok (Raw.str "garbage"),
    hasStatusFile := false, statusRaw := .error "absent" }

/-- A concrete schema-valid Status document. -/
def stFix : SpokeStatus :=
  { schemaVersion := "1.0", generatedAt := "2026-02-07T00:00:00Z",
    generatedBy := "hive-spoke 0.1.0", phase := "build", tests := ⟨10, 0⟩,
    git := { branch := "main", lastCommit := "2026-02-07T00:00:00Z",
             dirty := false, behindRemote := 0 } }

/-- A concrete Operator whose handle differs from `m1` but whose signing key
matches it. -/
def opFix : Operator :=
  { schemaVersion := "1.0", handle := "bob", name := none,
    signing := { publicKey := "ssh-ed25519 AAAA1", fingerprint := none },
    identities := [], skills := [], availability := "open", hives := [] }

/-- Top-level field names of the Manifest schema. -/
def manifestFields : List String :=
  ["schemaVersion", "name", "hub", "project", "maintainer", "license",
   "identity", "security", "status"]

/-- Top-level field names of the Status schema. -/
def statusFields : List String :=
  ["schemaVersion", "generatedAt", "generatedBy", "phase", "tests", "git"]

/-- Top-level field names of the Operator schema. -/
def operatorFields : List String :=
  ["schemaVersion", "handle", "name", "signing", "identities", "skills",
   "availability", "hives"]

/- ### Helper lemmas: validation results -/

@[simp] lemma errsOf_vmap {α β : Type} (f : α → β) (e : Vres α) :
    errsOf (vmap f e) = errsOf e := by
  cases e <;> rfl

@[simp] lemma errsOf_vpair {α β : Type} (a : Vres α) (b : Vres β) :
    errsOf (vpair a b) = errsOf a ++ errsOf b := by
  cases a <;> cases b <;> simp [vpair, errsOf]

@[simp] lemma vIsOk_vmap {α β : Type} (f : α → β) (e : Vres α) :
    vIsOk (vmap f e) = vIsOk e := by
  cases e <;> rfl

@[simp] lemma vIsOk_vpair {α β : Type} (a : Vres α) (b : Vres β) :
    vIsOk (vpair a b) = (vIsOk a && vIsOk b) := by
  cases a <;> cases b <;> rfl

lemma errsOf_eq_nil_of_ok {α : Type} {e : Vres α} (h : vIsOk e = true) :
    errsOf e = [] := by
  cases e with
  | ok _ => rfl
  | error _ => simp [vIsOk] at h

lemma not_ok_of_mem_errsOf {α : Type} {e : Vres α} {v : Violation}
    (h : v ∈ errsOf e) : vIsOk e = false := by
  cases e with
  | ok _ => simp [errsOf] at h
  | error _ => rfl

@[simp] lemma errsOf_withPath {α : Type} (k : String) (e : Vres α) :
    errsOf (withPath k e) = atPath k (errsOf e) := by
  cases e <;> simp [withPath, errsOf, atPath]

@[simp] lemma atPath_nil (k : String) : atPath k [] = [] := rfl

lemma atPath_eq_nil_iff (k : String) (es : List Violation) :
    atPath k es = [] ↔ es = [] := by
  simp [atPath]

lemma errsOf_reqField_none {α : Type} {fs : List (String × Raw)} {k : String}
    (p : Raw → Vres α) (h : getField fs k = none) :
    errsOf (reqField fs k p) = [⟨[k], "Required"⟩] := by
  simp [reqField, h, errsOf]

lemma errsOf_reqField_some {α : Type} {fs : List (String × Raw)} {k : String}
    {r : Raw} (p : Raw → Vres α) (h : getField fs k = some r) :
    errsOf (reqField fs k p) = atPath k (errsOf (p r)) := by
  simp [reqField, h]

lemma errsOf_optField_some {α : Type} {fs : List (String × Raw)} {k : String}
    {r : Raw} (p : Raw → Vres α) (h : getField fs k = some r) :
    errsOf (optField fs k p) = atPath k (errsOf (p r)) := by
  simp [optField, h]

lemma errsOf_defField_some {α : Type} {fs : List (String × Raw)} {k : String}
    {r : Raw} (p : Raw → Vres α) (d : α) (h : getField fs k = some r) :
    errsOf (defField fs k p d) = atPath k (errsOf (p r)) := by
  simp [defField, h]

lemma path_head_of_mem_reqField {α : Type} {fs : List (String × Raw)}
    {k : String} {p : Raw → Vres α} {v : Violation}
    (h : v ∈ errsOf (reqField fs k p)) : v.path.head? = some k := by
  unfold reqField at h
  cases hg : getField fs k with
  | none => rw [hg] at h; simp [errsOf] at h; simp [h]
  | some r =>
    rw [hg] at h
    simp only [errsOf_withPath, atPath, List.mem_map] at h
    obtain ⟨w, _, hw⟩ := h
    simp [← hw]

lemma path_head_of_mem_optField {α : Type} {fs : List (String × Raw)}
    {k : String} {p : Raw → Vres α} {v : Violation}
    (h : v ∈ errsOf (optField fs k p)) : v.path.head? = some k := by
  unfold optField at h
  cases hg : getField fs k with
  | none => rw [hg] at h; simp [errsOf] at h
  | some r =>
    rw [hg] at h
    simp only [errsOf_withPath, errsOf_vmap, atPath, List.mem_map] at h
    obtain ⟨w, _, hw⟩ := h
    simp [← hw]

lemma path_head_of_mem_defField {α : Type} {fs : List (String × Raw)}
    {k : String} {p : Raw → Vres α} {d : α} {v : Violation}
    (h : v ∈ errsOf (defField fs k p d)) : v.path.head? = some k := by
  unfold defField at h
  cases hg : getField fs k with
  | none => rw [hg] at h; simp [errsOf] at h
  | some r =>
    rw [hg] at h
    simp only [errsOf_withPath, atPath, List.mem_map] at h
    obtain ⟨w, _, hw⟩ := h
    simp [← hw]

/- ### Helper lemmas: failing validations always carry at least one violation -/

/-- A validation result that is not the empty error. -/
def NEv {α : Type} (e : Vres α) : Prop := e ≠ Except.error ([] : List Violation)

/-- A field schema none of whose results is the empty error. -/
def TotalNE {α : Type} (p : Raw → Vres α) : Prop := ∀ r, NEv (p r)

lemma nev_vmap {α β : Type} {f : α → β} {e : Vres α} (h : NEv e) :
    NEv (vmap f e) := by
  cases e with
  | ok a => simp [vmap, NEv]
  | error es => simpa [vmap, NEv] using h

lemma nev_vpair {α β : Type} {a : Vres α} {b : Vres β} (ha : NEv a) (hb : NEv b) :
    NEv (vpair a b) := by
  cases a <;> cases b <;> simp_all [vpair, NEv]

lemma nev_withPath {α : Type} {k : String} {e : Vres α} (h : NEv e) :
    NEv (withPath k e) := by
  cases e with
  | ok a => simp [withPath, NEv]
  | error es => simp_all [withPath, NEv, atPath]

lemma nev_reqField {α : Type} {fs : List (String × Raw)} {k : String}
    {p : Raw → Vres α} (hp : TotalNE p) : NEv (reqField fs k p) := by
  unfold reqField
  cases getField fs k with
  | none => simp [NEv]
  | some r => exact nev_withPath (hp r)

lemma nev_optField {α : Type} {fs : List (String × Raw)} {k : String}
    {p : Raw → Vres α} (hp : TotalNE p) : NEv (optField fs k p) := by
  unfold optField
  cases getField fs k with
  | none => simp [NEv]
  | some r => exact nev_withPath (nev_vmap (hp r))

lemma nev_defField {α : Type} {fs : List (String × Raw)} {k : String}
    {p : Raw → Vres α} {d : α} (hp : TotalNE p) : NEv (defField fs k p d) := by
  unfold defField
  cases getField fs k with
  | none => simp [NEv]
  | some r => exact nev_withPath (hp r)

lemma totalNE_pStringCheck (check : String → Bool) (msg : String) :
    TotalNE (pStringCheck check msg) := by
  intro r
  cases r <;> simp [pStringCheck, NEv]
  split <;> simp

lemma totalNE_pString : TotalNE pString := by
  intro r; cases r <;> simp [pString, NEv]

lemma totalNE_pBoolean : TotalNE pBoolean := by
  intro r; cases r <;> simp [pBoolean, NEv]

lemma totalNE_pNonnegInt : TotalNE pNonnegInt := by
  intro r
  cases r <;> simp [pNonnegInt, NEv]
  split <;> simp

lemma nev_pElems {α : Type} {p : Raw → Vres α} (hp : TotalNE p) (i : Nat)
    (xs : List Raw) : NEv (pElems p i xs) := by
  induction xs generalizing i with
  | nil => simp [pElems, NEv]
  | cons x xs ih =>
    exact nev_vmap (nev_vpair (nev_withPath (hp x)) (ih (i + 1)))

lemma totalNE_pArr {α : Type} {p : Raw → Vres α} (hp : TotalNE p) :
    TotalNE (pArr p) := by
  intro r
  cases r <;> simp [pArr, NEv]
  exact nev_pElems hp 0 _

lemma totalNE_pReflexes : TotalNE pReflexes := by
  intro r
  cases r <;> simp [pReflexes, NEv]
  exact nev_vmap (nev_vpair (nev_vpair (nev_vpair
    (nev_defField totalNE_pBoolean) (nev_defField totalNE_pBoolean))
    (nev_defField totalNE_pBoolean)) (nev_defField totalNE_pBoolean))

lemma totalNE_pSecurity : TotalNE pSecurity := by
  intro r
  cases r <;> simp [pSecurity, NEv]
  exact nev_vmap (nev_defField totalNE_pReflexes)

lemma totalNE_pIdentity : TotalNE pIdentity := by
  intro r
  cases r <;> simp [pIdentity, NEv]
  exact nev_vmap (nev_vpair (nev_vpair
    (nev_reqField (totalNE_pStringCheck _ _)) (nev_reqField (totalNE_pStringCheck _ _)))
    (nev_optField (totalNE_pStringCheck _ _)))

lemma totalNE_pStatusCfg : TotalNE pStatusCfg := by
  intro r
  cases r <;> simp [pStatusCfg, NEv]
  exact nev_vmap (nev_vpair (nev_optField (totalNE_pStringCheck _ _))
    (nev_optField (totalNE_pStringCheck _ _)))

lemma totalNE_pManifest : TotalNE pManifest := by
  intro r
  cases r <;> simp [pManifest, NEv]
  exact nev_vmap (nev_vpair (nev_vpair (nev_vpair (nev_vpair (nev_vpair
    (nev_vpair (nev_vpair (nev_vpair
      (nev_reqField (totalNE_pStringCheck _ _)) (nev_reqField (totalNE_pStringCheck _ _)))
      (nev_reqField (totalNE_pStringCheck _ _))) (nev_reqField (totalNE_pStringCheck _ _)))
      (nev_reqField (totalNE_pStringCheck _ _))) (nev_reqField (totalNE_pStringCheck _ _)))
      (nev_reqField totalNE_pIdentity)) (nev_defField totalNE_pSecurity))
      (nev_optField totalNE_pStatusCfg))

lemma totalNE_pTests : TotalNE pTests := by
  intro r
  cases r <;> simp [pTests, NEv]
  exact nev_vmap (nev_vpair (nev_reqField totalNE_pNonnegInt)
    (nev_reqField totalNE_pNonnegInt))

lemma totalNE_pGit (dp : String → Option Int) : TotalNE (pGit dp) := by
  intro r
  cases r <;> simp [pGit, NEv]
  exact nev_vmap (nev_vpair (nev_vpair (nev_vpair
    (nev_reqField (totalNE_pStringCheck _ _)) (nev_reqField (totalNE_pStringCheck _ _)))
    (nev_reqField totalNE_pBoolean)) (nev_reqField totalNE_pNonnegInt))

lemma totalNE_pStatus (dp : String → Option Int) : TotalNE (pStatus dp) := by
  intro r
  cases r <;> simp [pStatus, NEv]
  exact nev_vmap (nev_vpair (nev_vpair (nev_vpair (nev_vpair (nev_vpair
    (nev_reqField (totalNE_pStringCheck _ _)) (nev_reqField (totalNE_pStringCheck _ _)))
    (nev_reqField (totalNE_pStringCheck _ _))) (nev_reqField (totalNE_pStringCheck _ _)))
    (nev_reqField totalNE_pTests)) (nev_reqField (totalNE_pGit dp)))

lemma totalNE_pIdentityEntry (dp : String → Option Int) :
    TotalNE (pIdentityEntry dp) := by
  intro r
  cases r <;> simp [pIdentityEntry, NEv]
  exact nev_vmap (nev_vpair (nev_vpair (nev_vpair
    (nev_reqField (totalNE_pStringCheck _ _)) (nev_reqField (totalNE_pStringCheck _ _)))
    (nev_reqField totalNE_pBoolean)) (nev_optField (totalNE_pStringCheck _ _)))

lemma totalNE_pHiveEntry (dp : String → Option Int) : TotalNE (pHiveEntry dp) := by
  intro r
  cases r <;> simp [pHiveEntry, NEv]
  exact nev_vmap (nev_vpair (nev_vpair (nev_vpair (nev_vpair (nev_vpair
    (nev_vpair (nev_vpair
      (nev_reqField (totalNE_pStringCheck _ _)) (nev_optField (totalNE_pStringCheck _ _)))
      (nev_optField (totalNE_pStringCheck _ _))) (nev_optField totalNE_pString))
      (nev_optField (totalNE_pStringCheck _ _))) (nev_optField totalNE_pNonnegInt))
      (nev_optField totalNE_pNonnegInt)) (nev_optField totalNE_pNonnegInt))

lemma totalNE_pOperatorSigning : TotalNE pOperatorSigning := by
  intro r
  cases r <;> simp [pOperatorSigning, NEv]
  exact nev_vmap (nev_vpair (nev_reqField (totalNE_pStringCheck _ _))
    (nev_optField (totalNE_pStringCheck _ _)))

lemma totalNE_pOperator (dp : String → Option Int) : TotalNE (pOperator dp) := by
  intro r
  cases r <;> simp [pOperator, NEv]
  exact nev_vmap (nev_vpair (nev_vpair (nev_vpair (nev_vpair (nev_vpair
    (nev_vpair (nev_vpair
      (nev_reqField (totalNE_pStringCheck _ _)) (nev_reqField (totalNE_pStringCheck _ _)))
      (nev_optField totalNE_pString)) (nev_reqField totalNE_pOperatorSigning))
      (nev_defField (totalNE_pArr (totalNE_pIdentityEntry dp))))
      (nev_defField (totalNE_pArr totalNE_pString)))
      (nev_defField (totalNE_pStringCheck _ _)))
      (nev_defField (totalNE_pArr (totalNE_pHiveEntry dp))))

/- ### Helper lemmas: association lists and the registry fold -/

lemma alookup_append {α : Type} (xs ys : List (String × α)) (k : String) :
    alookup (xs ++ ys) k =
      match alookup xs k with
      | some v => some v
      | none => alookup ys k := by
  induction xs with
  | nil => simp [alookup]
  | cons p ps ih =>
    by_cases h : p.1 = k
    · simp [alookup, h]
    · simp [alookup, h, ih]

lemma alookup_map_replace {α : Type} (m : List (String × α)) (k k2 : String)
    (v : α) :
    alookup (m.map (fun p => if p.1 = k then (k, v) else p)) k2 =
      if k2 = k then (if m.any (fun p => p.1 = k) then some v else none)
      else alookup m k2 := by
  induction m with
  | nil => simp [alookup]
  | cons p ps ih =>
    simp only [List.map_cons, List.any_cons]
    by_cases hpk : p.1 = k
    · by_cases hk2 : k2 = k
      · subst hk2
        simp [alookup, hpk, ih]
      · have hne : ¬k = k2 := fun h => hk2 h.symm
        have hp2 : ¬p.1 = k2 := by rw [hpk]; exact hne
        simp [alookup, hpk, hk2, hne, hp2, ih]
    · by_cases hpk2 : p.1 = k2
      · have hk2 : ¬k2 = k := by
          intro h
          exact hpk (by rw [hpk2, h])
        simp [alookup, hpk, hpk2, hk2]
      · have hd : (decide (p.1 = k) : Bool) = false := by simp [hpk]
        simp only [alookup, if_neg hpk, if_neg hpk2, ih, hd, Bool.false_or]

lemma any_key_iff_isSome {α : Type} (m : List (String × α)) (k : String) :
    m.any (fun p => p.1 = k) = true ↔ (alookup m k).isSome := by
  induction m with
  | nil => simp [alookup]
  | cons p ps ih =>
    by_cases h : p.1 = k
    · simp [alookup, h]
    · simp [alookup, h, ih]

lemma alookup_mapSet {α : Type} (m : List (String × α)) (k k2 : String) (v : α) :
    alookup (mapSet m k v) k2 = if k2 = k then some v else alookup m k2 := by
  unfold mapSet
  by_cases hany : m.any (fun p => p.1 = k) = true
  · rw [if_pos hany, alookup_map_replace]
    simp [hany]
  · rw [if_neg hany, alookup_append]
    have hnone : alookup m k = none := by
      cases ha : alookup m k with
      | none => rfl
      | some w => exact absurd ((any_key_iff_isSome m k).mpr (by simp [ha])) hany
    by_cases hk : k2 = k
    · subst hk
      rw [hnone]
      simp [alookup]
    · have hne : ¬k = k2 := fun h => hk h.symm
      cases alookup m k2 <;> simp [alookup, hk, hne]

lemma mem_keys_iff_any {α : Type} (m : List (String × α)) (k : String) :
    k ∈ m.map Prod.fst ↔ m.any (fun p => p.1 = k) = true := by
  rw [List.any_eq_true]
  constructor
  · intro h
    obtain ⟨p, hp, hpk⟩ := List.mem_map.mp h
    exact ⟨p, hp, by simp [hpk]⟩
  · rintro ⟨p, hp, hpk⟩
    simp only [decide_eq_true_eq] at hpk
    exact List.mem_map.mpr ⟨p, hp, hpk⟩

lemma keys_mapSet_mem {α : Type} (m : List (String × α)) (k : String) (v : α)
    (h : k ∈ m.map Prod.fst) :
    (mapSet m k v).map Prod.fst = m.map Prod.fst := by
  unfold mapSet
  rw [mem_keys_iff_any] at h
  rw [if_pos h, List.map_map]
  congr 1
  funext p
  by_cases hp : p.1 = k <;> simp [hp]

lemma keys_mapSet_new {α : Type} (m : List (String × α)) (k : String) (v : α)
    (h : k ∉ m.map Prod.fst) :
    mapSet m k v = m ++ [(k, v)] := by
  unfold mapSet
  rw [mem_keys_iff_any] at h
  simp only [h]
  simp

lemma nodup_keys_mapSet {α : Type} (m : List (String × α)) (k : String) (v : α)
    (h : (m.map Prod.fst).Nodup) : ((mapSet m k v).map Prod.fst).Nodup := by
  by_cases hk : k ∈ m.map Prod.fst
  · rw [keys_mapSet_mem m k v hk]; exact h
  · rw [keys_mapSet_new m k v hk]
    simp [List.nodup_append, h, hk]

lemma sigStep_none {line : String} (m : List (String × AllowedSigner))
    (h : parseSignerLine? line = none) : sigStep m line = m := by
  unfold sigStep
  rw [h]

lemma sigStep_some {line k : String} {v : AllowedSigner}
    (m : List (String × AllowedSigner)) (h : parseSignerLine? line = some (k, v)) :
    sigStep m line = mapSet m k v := by
  unfold sigStep
  rw [h]

lemma foldl_sigStep_alookup (lines : List String)
    (m : List (String × AllowedSigner)) (k : String) :
    alookup (lines.foldl sigStep m) k =
      match alookup ((lines.filterMap parseSignerLine?).reverse) k with
      | some v => some v
      | none => alookup m k := by
  induction lines generalizing m with
  | nil => simp [alookup]
  | cons l ls ih =>
    rw [List.foldl_cons, ih, List.filterMap_cons]
    cases hl : parseSignerLine? l with
    | none => rw [sigStep_none m hl]
    | some kv =>
      obtain ⟨k0, v0⟩ := kv
      rw [sigStep_some m hl]
      simp only [List.reverse_cons, alookup_append]
      cases alookup ((ls.filterMap parseSignerLine?).reverse) k with
      | some w => rfl
      | none =>
        simp only [alookup_mapSet, alookup]
        by_cases hk : k = k0
        · simp [hk]
        · simp [hk, Ne.symm hk]

lemma alookup_isSome_iff_mem {α : Type} (m : List (String × α)) (k : String) :
    (alookup m k).isSome = true ↔ k ∈ m.map Prod.fst := by
  rw [mem_keys_iff_any, any_key_iff_isSome]

lemma alookup_reverse_isSome {α : Type} (m : List (String × α)) (k : String) :
    (alookup m.reverse k).isSome = (alookup m k).isSome := by
  rw [Bool.eq_iff_iff, alookup_isSome_iff_mem, alookup_isSome_iff_mem,
    List.map_reverse, List.mem_reverse]

lemma foldl_sigStep_mem_keys (lines : List String)
    (m : List (String × AllowedSigner)) (k : String) :
    k ∈ (lines.foldl sigStep m).map Prod.fst ↔
      k ∈ (lines.filterMap parseSignerLine?).map Prod.fst ∨
        k ∈ m.map Prod.fst := by
  rw [← alookup_isSome_iff_mem, ← alookup_isSome_iff_mem, ← alookup_isSome_iff_mem,
    foldl_sigStep_alookup]
  have hrev := alookup_reverse_isSome (lines.filterMap parseSignerLine?) k
  cases h1 : alookup ((lines.filterMap parseSignerLine?).reverse) k <;>
    cases h2 : alookup (lines.filterMap parseSignerLine?) k <;>
    simp_all

lemma foldl_sigStep_nodup_keys (lines : List String)
    (m : List (String × AllowedSigner)) (h : (m.map Prod.fst).Nodup) :
    ((lines.foldl sigStep m).map Prod.fst).Nodup := by
  induction lines generalizing m with
  | nil => exact h
  | cons l ls ih =>
    rw [List.foldl_cons]
    apply ih
    cases hl : parseSignerLine? l with
    | none => rw [sigStep_none m hl]; exact h
    | some kv =>
      obtain ⟨k0, v0⟩ := kv
      rw [sigStep_some m hl]
      exact nodup_keys_mapSet m k0 v0 h

lemma foldl_sigStep_append_of_nodup (lines : List String)
    (m : List (String × AllowedSigner))
    (h : (m.map Prod.fst ++ (lines.filterMap parseSignerLine?).map Prod.fst).Nodup) :
    lines.foldl sigStep m = m ++ lines.filterMap parseSignerLine? := by
  induction lines generalizing m with
  | nil => simp
  | cons l ls ih =>
    rw [List.foldl_cons]
    cases hl : parseSignerLine? l with
    | none =>
      rw [sigStep_none m hl]
      simp only [List.filterMap_cons, hl]
      exact ih m (by simpa [List.filterMap_cons, hl] using h)
    | some kv =>
      obtain ⟨k0, v0⟩ := kv
      rw [sigStep_some m hl]
      simp only [List.filterMap_cons, hl]
      simp only [List.filterMap_cons, hl, List.map_cons] at h
      have hk0 : k0 ∉ m.map Prod.fst := by
        intro hmem
        have hd := (List.nodup_append.mp h).2.2
        exact hd hmem (by simp)
      rw [keys_mapSet_new m k0 v0 hk0]
      rw [ih (m ++ [(k0, v0)]) (by
        have hru : (m.map Prod.fst ++ [k0]) ++
            (List.filterMap parseSignerLine? ls).map Prod.fst =
            m.map Prod.fst ++ k0 :: (List.filterMap parseSignerLine? ls).map Prod.fst := by
          simp
        simp only [List.map_append, List.map_cons, List.map_nil]
        rw [hru]
        exact h)]
      simp

/- ### Helper lemmas: the aggregation fold and key matching -/

lemma foldl_pullStep (dp : String → Option Int) (nowMs : Int)
    (sources : List SpokeSource) (acc : PullSummary) :
    sources.foldl (pullStep dp nowMs) acc =
      { spokes := acc.spokes ++
          sources.filterMap (fun sp => entryOf? (processSpoke dp nowMs sp))
        withCollab := acc.withCollab +
          sources.countP (fun sp => !isNoCollab (processSpoke dp nowMs sp))
        withoutCollab := acc.withoutCollab +
          sources.countP (fun sp => isNoCollab (processSpoke dp nowMs sp))
        failures := acc.failures ++
          sources.filterMap (fun sp => failureOf? (processSpoke dp nowMs sp)) } := by
  induction sources generalizing acc with
  | nil => simp
  | cons sp sps ih =>
    rw [List.foldl_cons, ih]
    cases h : processSpoke dp nowMs sp with
    | noCollab =>
      simp [pullStep, h, entryOf?, failureOf?, isNoCollab, List.countP_cons]
      omega
    | failure p =>
      simp [pullStep, h, entryOf?, failureOf?, isNoCollab, List.countP_cons]
      omega
    | entry e =>
      simp [pullStep, h, entryOf?, failureOf?, isNoCollab, List.countP_cons]
      omega

lemma keyTokensMatch_iff (x y : String) :
    keyTokensMatch x y = true ↔
      ∃ a b ta c d tb, jsSplitWs x = a :: b :: ta ∧ jsSplitWs y = c :: d :: tb ∧
        a = c ∧ b = d := by
  unfold keyTokensMatch
  cases hx : jsSplitWs x with
  | nil => simp [hx]
  | cons a tx =>
    cases tx with
    | nil => simp [hx]
    | cons b ta =>
      cases hy : jsSplitWs y with
      | nil => simp [hx, hy]
      | cons c ty =>
        cases ty with
        | nil => simp [hx, hy]
        | cons d tb =>
          simp only [hx, hy, Bool.and_eq_true, decide_eq_true_eq, List.cons.injEq]
          constructor
          · rintro ⟨h1, h2⟩
            exact ⟨a, b, ta, c, d, tb, ⟨rfl, rfl, rfl⟩, ⟨rfl, rfl, rfl⟩, h1, h2⟩
          · rintro ⟨a', b', ta', c', d', tb', ⟨ha, hb, hta⟩, ⟨hc, hd, htb⟩, h1, h2⟩
            subst ha hb hc hd
            exact ⟨h1, h2⟩

lemma findKeyMatch_iff (spokeKey : String) (m : List (String × AllowedSigner)) :
    findKeyMatch spokeKey m = true ↔
      ∃ s ∈ m.map Prod.snd,
        strStarts spokeKey s.publicKey = true ∨
          keyTokensMatch spokeKey s.publicKey = true := by
  induction m with
  | nil => simp [findKeyMatch]
  | cons p ps ih =>
    obtain ⟨e, s⟩ := p
    by_cases h1 : strStarts spokeKey s.publicKey = true
    · simp only [findKeyMatch, h1, if_pos rfl]
      constructor
      · intro _
        exact ⟨s, by simp, Or.inl h1⟩
      · intro _
        rfl
    · by_cases h2 : keyTokensMatch spokeKey s.publicKey = true
      · simp only [findKeyMatch]
        rw [if_neg (by simp [h1]), if_pos h2]
        constructor
        · intro _
          exact ⟨s, by simp, Or.inr h2⟩
        · intro _
          rfl
      · simp only [findKeyMatch]
        rw [if_neg (by simp [h1]), if_neg (by simp [h2]), ih]
        constructor
        · rintro ⟨t, ht, hmatch⟩
          exact ⟨t, by rw [List.map_cons]; exact List.mem_cons_of_mem s ht, hmatch⟩
        · rintro ⟨t, ht, hmatch⟩
          rw [List.map_cons] at ht
          rcases List.mem_cons.mp ht with heq | hmem
          · exfalso
            subst heq
            rcases hmatch with h | h
            · exact h1 h
            · exact h2 h
          · exact ⟨t, hmem, hmatch⟩

lemma errsOf_pStringCheck_str (check : String → Bool) (msg s : String) :
    errsOf (pStringCheck check msg (Raw.str s)) =
      if check s then [] else [⟨[], msg⟩] := by
  simp only [pStringCheck]
  split <;> simp_all [errsOf]

/- ### Claim theorems -/

/-- C1: key verification iterates the registry entries in insertion order and
reports a match exactly when some entry matches, where an entry matches iff
the spoke key starts with the entry's reconstructed `"<keyType> <keyData>"`
string, or both keys split on whitespace into at least two tokens with the
first two tokens (key type, key data) pairwise equal; the loop returns at the
first matching entry and `false` after exhausting the registry. -/
theorem verify_key_match_iff (spokeKey : String)
    (registry : List (String × AllowedSigner)) :
    findKeyMatch spokeKey registry = true ↔
      ∃ s ∈ registry.map Prod.snd,
        strStarts spokeKey s.publicKey = true ∨
          ∃ a b ta c d tb, jsSplitWs spokeKey = a :: b :: ta ∧
            jsSplitWs s.publicKey = c :: d :: tb ∧ a = c ∧ b = d := by
  rw [findKeyMatch_iff]
  constructor
  · rintro ⟨s, hs, h⟩
    exact ⟨s, hs, h.imp id (fun h2 => (keyTokensMatch_iff _ _).mp h2)⟩
  · rintro ⟨s, hs, h⟩
    exact ⟨s, hs, h.imp id (fun h2 => (keyTokensMatch_iff _ _).mpr h2)⟩

/-- C3: an aggregated spoke is stale when its Status document is absent, and
otherwise exactly when now minus the parsed `generatedAt` strictly exceeds
604,800,000 ms (7 days): at exactly 7 days it is not stale, at 7 days plus
one second it is stale, and at 6 days it is not stale. -/
theorem staleness_boundary (dp : String → Option Int) (nowMs t : Int)
    (m : Manifest) (st : SpokeStatus) :
    (mkSpokeEntry dp nowMs m none).stale = true ∧
    (mkSpokeEntry dp nowMs m (some st)).stale = isStale dp st.generatedAt nowMs ∧
    (dp st.generatedAt = some t →
      isStale dp st.generatedAt nowMs = decide (nowMs - t > 604800000)) ∧
    (dp st.generatedAt = some (nowMs - 604800000) →
      isStale dp st.generatedAt nowMs = false) ∧
    (dp st.generatedAt = some (nowMs - 604801000) →
      isStale dp st.generatedAt nowMs = true) ∧
    (dp st.generatedAt = some (nowMs - 518400000) →
      isStale dp st.generatedAt nowMs = false) := by
  refine ⟨rfl, rfl, ?_, ?_, ?_, ?_⟩
  · intro h
    simp only [isStale, h, decide_eq_decide]
    omega
  · intro h
    simp only [isStale, h, decide_eq_false_iff_not]
    omega
  · intro h
    simp only [isStale, h, decide_eq_true_eq]
    omega
  · intro h
    simp only [isStale, h, decide_eq_false_iff_not]
    omega

/-- Witness for C3 at a concrete parser and instant: a Status generated
exactly 7 days before now is not stale. -/
theorem staleness_boundary_witness :
    dp0 stFix.generatedAt = some ((604800000 : Int) - 604800000) ∧
    isStale dp0 stFix.generatedAt 604800000 = false :=
  ⟨rfl, (staleness_boundary dp0 604800000 0 m1 stFix).2.2.2.1 rfl⟩

/-- C5: for a schema-valid Manifest, verification emits the
not-in-allowed-signers issue exactly when the key matching found no match,
the no-fingerprint issue exactly when the Manifest carries no fingerprint,
and no other issue; a spoke counts as verified iff its issue list is empty,
and verified plus unverified spokes equal the total checked. -/
theorem verify_issue_rules (signers : List (String × AllowedSigner))
    (project : String) (m : Manifest) (rs : List VerifyResult) :
    ((verifySpoke signers project m).inAllowedSigners = false →
      keyNotInSignersIssue ∈ (verifySpoke signers project m).issues) ∧
    ((verifySpoke signers project m).fingerprint = none →
      noFingerprintIssue ∈ (verifySpoke signers project m).issues) ∧
    (∀ i ∈ (verifySpoke signers project m).issues,
      (i = keyNotInSignersIssue ∧
        (verifySpoke signers project m).inAllowedSigners = false) ∨
      (i = noFingerprintIssue ∧ (verifySpoke signers project m).fingerprint = none)) ∧
    ((verifySpoke signers project m).issues = [] ↔
      ((verifySpoke signers project m).inAllowedSigners = true ∧
        (verifySpoke signers project m).fingerprint ≠ none)) ∧
    verifiedCount rs + unverifiedCount rs = rs.length := by
  refine ⟨?_, ?_, ?_, ?_, ?_⟩
  · cases hk : findKeyMatch m.identity.publicKey signers <;>
      cases hf : m.identity.fingerprint <;>
      simp [verifySpoke, hk, hf]
  · cases hk : findKeyMatch m.identity.publicKey signers <;>
      cases hf : m.identity.fingerprint <;>
      simp [verifySpoke, hk, hf]
  · cases hk : findKeyMatch m.identity.publicKey signers <;>
      cases hf : m.identity.fingerprint <;>
      simp [verifySpoke, hk, hf]
  · cases hk : findKeyMatch m.identity.publicKey signers <;>
      cases hf : m.identity.fingerprint <;>
      simp [verifySpoke, hk, hf]
  · have hle : verifiedCount rs ≤ rs.length := List.length_filter_le _ _
    unfold unverifiedCount
    omega

/-- Witness for C5 at the empty registry and a fingerprint-less Manifest:
the spoke is not in the allowed signers and the corresponding issue is
emitted. -/
theorem verify_issue_rules_witness :
    (verifySpoke [] "p" m1).inAllowedSigners = false ∧
    keyNotInSignersIssue ∈ (verifySpoke [] "p" m1).issues :=
  ⟨rfl, (verify_issue_rules [] "p" m1 []).1 rfl⟩

/-- C6: cross-file consistency is skipped without violation when either
document is missing; when both are present the handle equality and the
public-key equality are checked independently, each mismatch is recorded as
an error (warnings are untouched), and a pair mismatching only on handle
yields exactly one handle-mismatch error and no key-mismatch error. -/
theorem cross_file_rules (o : Option Operator) (res : ValidationResult)
    (mm : Manifest) (oo : Operator) :
    validateCrossFile none o res = res ∧
    validateCrossFile (some mm) none res = res ∧
    (validateCrossFile (some mm) (some oo) res).warnings = res.warnings ∧
    (validateCrossFile (some mm) (some oo) res).errors =
      res.errors ++
        (if mm.identity.handle = oo.handle then []
         else [handleMismatchMsg mm.identity.handle oo.handle]) ++
        (if mm.identity.publicKey = oo.signing.publicKey then []
         else [keyMismatchMsg]) ∧
    (mm.identity.handle ≠ oo.handle →
      mm.identity.publicKey = oo.signing.publicKey →
      (validateCrossFile (some mm) (some oo) ⟨[], []⟩).errors =
        [handleMismatchMsg mm.identity.handle oo.handle]) := by
  refine ⟨rfl, rfl, ?_, ?_, ?_⟩
  · by_cases h1 : mm.identity.handle = oo.handle <;>
      by_cases h2 : mm.identity.publicKey = oo.signing.publicKey <;>
      simp [validateCrossFile, h1, h2]
  · by_cases h1 : mm.identity.handle = oo.handle <;>
      by_cases h2 : mm.identity.publicKey = oo.signing.publicKey <;>
      simp [validateCrossFile, h1, h2]
  · intro h1 h2
    simp [validateCrossFile, h1, h2]

/-- Witness for C6 at a concrete pair mismatching only on handle: exactly
one handle-mismatch error is recorded. -/
theorem cross_file_rules_witness :
    m1.identity.handle ≠ opFix.handle ∧
    m1.identity.publicKey = opFix.signing.publicKey ∧
    (validateCrossFile (some m1) (some opFix) ⟨[], []⟩).errors =
      [handleMismatchMsg m1.identity.handle opFix.handle] :=
  ⟨by decide, rfl,
    (cross_file_rules none ⟨[], []⟩ m1 opFix).2.2.2.2 (by decide) rfl⟩

/-- C10: in the parsed registry, a later well-formed line with the same email
silently overwrites an earlier one — looking an email up yields the entry of
the LAST well-formed line carrying it — the registry keys are duplicate-free,
and the registry size is the number of DISTINCT emails among the well-formed
lines, not the number of well-formed lines. -/
theorem registry_last_wins (content : String) (email : String) :
    alookup (parseAllowedSigners content) email =
      alookup ((wfEntries content).reverse) email ∧
    ((parseAllowedSigners content).map Prod.fst).Nodup ∧
    (parseAllowedSigners content).length =
      ((wfEntries content).map Prod.fst).toFinset.card := by
  refine ⟨?_, ?_, ?_⟩
  · unfold parseAllowedSigners wfEntries
    rw [foldl_sigStep_alookup]
    cases alookup (((splitLines content).filterMap parseSignerLine?).reverse) email <;>
      simp [alookup]
  · exact foldl_sigStep_nodup_keys _ _ (by simp)
  · have hnd : ((parseAllowedSigners content).map Prod.fst).Nodup :=
      foldl_sigStep_nodup_keys (splitLines content) [] (by simp)
    have hlen : (parseAllowedSigners content).length =
        ((parseAllowedSigners content).map Prod.fst).length := by
      rw [List.length_map]
    rw [hlen, ← List.toFinset_card_of_nodup hnd]
    congr 1
    apply Finset.ext
    intro a
    simp only [List.mem_toFinset]
    unfold parseAllowedSigners wfEntries
    rw [foldl_sigStep_mem_keys]
    simp

/-- C2 counterexample: on the single line `"a b c d"` the source parser keeps
only the third token as key data (storing comparison key `"b c"`), while the
claim's parser rejoins all remaining tokens (storing `"b c d"`); the two
disagree. -/
theorem parse_registry_rejoined_cex :
    parseAllowedSigners "a b c d" ≠ specParseRegistryJoined "a b c d" := by
  decide

/-- C2 amended: for every trust-anchor text whose well-formed lines carry
pairwise-distinct emails, the parsed registry has exactly one entry per
well-formed line — keyed by the first token, with keyType the second token
and stored comparison key `"<keyType> <third token>"`, any tokens after the
third being dropped — while blank lines, `#`-comment lines and lines with
fewer than 3 tokens produce no entry and no error. -/
theorem parse_registry_amended (content : String)
    (hnd : ((wfEntries content).map Prod.fst).Nodup) :
    parseAllowedSigners content = wfEntries content ∧
    (∀ line, ((jsTrim line).isEmpty = true ∨ strStarts (jsTrim line) "#" = true ∨
        (jsSplitWs (jsTrim line)).length < 3) → parseSignerLine? line = none) ∧
    (∀ line e entry, parseSignerLine? line = some (e, entry) →
      ∃ t1 t2 t3 rest, jsSplitWs (jsTrim line) = t1 :: t2 :: t3 :: rest ∧
        e = t1 ∧ entry = ⟨t1, t2, t2 ++ " " ++ t3⟩) := by
  refine ⟨?_, ?_, ?_⟩
  · unfold parseAllowedSigners wfEntries
    rw [foldl_sigStep_append_of_nodup (splitLines content) [] (by simpa using hnd)]
    simp
  · intro line h
    by_cases h1 : (jsTrim line).isEmpty = true
    · simp [parseSignerLine?, h1]
    · by_cases h2 : strStarts (jsTrim line) "#" = true
      · simp [parseSignerLine?, h1, h2]
      · rcases h with h | h | h
        · exact absurd h h1
        · exact absurd h h2
        · simp only [parseSignerLine?, h1, h2, Bool.false_eq_true, if_false]
          cases hsp : jsSplitWs (jsTrim line) with
          | nil => simp
          | cons t1 r1 =>
            cases r1 with
            | nil => simp
            | cons t2 r2 =>
              cases r2 with
              | nil => simp
              | cons t3 r3 =>
                rw [hsp] at h
                simp at h
                omega
  · intro line e entry h
    unfold parseSignerLine? at h
    by_cases h1 : (jsTrim line).isEmpty = true
    · simp [h1] at h
    · rw [if_neg h1] at h
      by_cases h2 : strStarts (jsTrim line) "#" = true
      · simp [h2] at h
      · rw [if_neg h2] at h
        cases hsp : jsSplitWs (jsTrim line) with
        | nil => rw [hsp] at h; simp at h
        | cons t1 r1 =>
          cases r1 with
          | nil => rw [hsp] at h; simp at h
          | cons t2 r2 =>
            cases r2 with
            | nil => rw [hsp] at h; simp at h
            | cons t3 r3 =>
              rw [hsp] at h
              simp only [Option.some.injEq, Prod.mk.injEq] at h
              exact ⟨t1, t2, t3, r3, rfl, h.1.symm, h.2.symm⟩

/-- Witness for C2 amended at a concrete text with a comment line, a blank
line and two well-formed lines with distinct emails. -/
theorem parse_registry_amended_witness :
    ((wfEntries "# c\n\na b c x\nd e f").map Prod.fst).Nodup ∧
    parseAllowedSigners "# c\n\na b c x\nd e f" =
      wfEntries "# c\n\na b c x\nd e f" :=
  ⟨by decide, (parse_registry_amended "# c\n\na b c x\nd e f" (by decide)).1⟩

/-- C4 counterexample: a spoke with a schema-valid Manifest and a PRESENT but
unparseable Status document does NOT appear in the entry list with default
Status fields — the whole spoke becomes a recorded failure, because the
status parse throws inside the same try block as the manifest parse. -/
theorem status_defaults_cex :
    pManifest m1raw = Except.ok m1 ∧
    src4.hasStatusFile = true ∧
    vIsOk (pStatus dp0 (Raw.str "nope")) = false ∧
    entryOf? (processSpoke dp0 0 src4) = none ∧
    processSpoke dp0 0 src4 = SpokeOutcome.failure "s4" :=
  ⟨rfl, rfl, rfl, rfl, rfl⟩

/-- C4 amended: a spoke with a valid Manifest still appears in the entry
list, with the Status-derived fields taking defaults (phase "unknown", tests
0/0, dirty false, behindRemote 0, lastCommit "unknown", generatedAt "never")
and stale true, exactly when the Status document is ABSENT; when a Status
document is present but undecodable or schema-invalid, the spoke is recorded
as a per-spoke failure and excluded from the entry list. -/
theorem status_defaults_amended (dp : String → Option Int) (nowMs : Int)
    (sp : SpokeSource) (raw : Raw) (m : Manifest)
    (hfile : sp.hasManifestFile = true) (hraw : sp.manifestRaw = .ok raw)
    (hm : pManifest raw = .ok m) :
    (sp.hasStatusFile = false →
      processSpoke dp nowMs sp = .entry (mkSpokeEntry dp nowMs m none) ∧
      mkSpokeEntry dp nowMs m none =
        { project := m.project, maintainer := m.maintainer, phase := "unknown",
          tests := ⟨0, 0⟩, dirty := false, behindRemote := 0,
          lastCommit := "unknown", generatedAt := "never", license := m.license,
          reflexes := m.security.reflexes, stale := true }) ∧
    (∀ e, sp.statusRaw = .error e → sp.hasStatusFile = true →
      processSpoke dp nowMs sp = .failure sp.project ∧
      entryOf? (processSpoke dp nowMs sp) = none) ∧
    (∀ sraw es, sp.statusRaw = .ok sraw → pStatus dp sraw = .error es →
      sp.hasStatusFile = true →
      processSpoke dp nowMs sp = .failure sp.project ∧
      entryOf? (processSpoke dp nowMs sp) = none) := by
  refine ⟨?_, ?_, ?_⟩
  · intro hsf
    refine ⟨?_, rfl⟩
    simp [processSpoke, hfile, hraw, hm, hsf]
  · intro e he hsf
    have hout : processSpoke dp nowMs sp = .failure sp.project := by
      simp [processSpoke, hfile, hraw, hm, hsf, he]
    exact ⟨hout, by rw [hout]; rfl⟩
  · intro sraw es hs hes hsf
    have hout : processSpoke dp nowMs sp = .failure sp.project := by
      simp [processSpoke, hfile, hraw, hm, hsf, hs, hes]
    exact ⟨hout, by rw [hout]; rfl⟩

/-- Witness for C4 amended at a concrete spoke with a valid Manifest and no
Status document: its entry appears, with all Status defaults applied. -/
theorem status_defaults_amended_witness :
    src1.hasManifestFile = true ∧ src1.manifestRaw = Except.ok m1raw ∧
    pManifest m1raw = Except.ok m1 ∧ src1.hasStatusFile = false ∧
    processSpoke dp0 0 src1 = SpokeOutcome.entry (mkSpokeEntry dp0 0 m1 none) :=
  ⟨rfl, rfl, rfl, rfl,
    ((status_defaults_amended dp0 0 src1 m1raw m1 rfl rfl rfl).1 rfl).1⟩

/-- C9 counterexample: a spoke whose Manifest is valid can still yield NO
entry — when its Status document is present but invalid the whole spoke is
recorded as a failure — so "every spoke with a valid Manifest still yields
its entry" is false as stated. -/
theorem pull_valid_manifest_excluded_cex :
    src4.manifestRaw = Except.ok m1raw ∧
    pManifest m1raw = Except.ok m1 ∧
    (runPull dp0 0 [src4]).spokes = [] ∧
    (runPull dp0 0 [src4]).failures = ["s4"] :=
  ⟨rfl, rfl, rfl, rfl⟩

/-- C9 amended: an aggregation run is a per-spoke-independent fold — its
entry list, both fleet counters and its failure log are pointwise images of
the independent per-spoke outcomes, so one spoke's Manifest retrieval or
schema failure never aborts the run and never affects any other spoke; each
failing spoke is recorded as a per-spoke failure and excluded from the entry
list, and every spoke with a valid Manifest and an absent-or-valid Status
still yields its entry.  Concretely, of 3 spokes where spoke 2's manifest is
unparseable, spokes 1 and 3 yield their entries and spoke 2 one recorded
failure. -/
theorem pull_partial_failure_isolation (dp : String → Option Int)
    (nowMs : Int) (sources : List SpokeSource) (sp : SpokeSource) :
    runPull dp nowMs sources =
      { spokes := sources.filterMap (fun s => entryOf? (processSpoke dp nowMs s))
        withCollab := sources.countP (fun s => !isNoCollab (processSpoke dp nowMs s))
        withoutCollab := sources.countP (fun s => isNoCollab (processSpoke dp nowMs s))
        failures := sources.filterMap (fun s => failureOf? (processSpoke dp nowMs s)) } ∧
    (∀ e, sp.hasManifestFile = true → sp.manifestRaw = .error e →
      processSpoke dp nowMs sp = .failure sp.project ∧
      entryOf? (processSpoke dp nowMs sp) = none) ∧
    (∀ raw es, sp.hasManifestFile = true → sp.manifestRaw = .ok raw →
      pManifest raw = .error es →
      processSpoke dp nowMs sp = .failure sp.project ∧
      entryOf? (processSpoke dp nowMs sp) = none) ∧
    (∀ raw m, sp.hasManifestFile = true → sp.manifestRaw = .ok raw →
      pManifest raw = .ok m → sp.hasStatusFile = false →
      processSpoke dp nowMs sp = .entry (mkSpokeEntry dp nowMs m none)) ∧
    (runPull dp0 0 [src1, src2, src3]).spokes = [entry1, entry3] ∧
    (runPull dp0 0 [src1, src2, src3]).failures = ["s2"] ∧
    (runPull dp0 0 [src1, src2, src3]).withCollab = 3 ∧
    (runPull dp0 0 [src1, src2, src3]).withoutCollab = 0 := by
  refine ⟨?_, ?_, ?_, ?_, rfl, rfl, rfl, rfl⟩
  · unfold runPull
    rw [foldl_pullStep]
    simp
  · intro e hfile he
    have hout : processSpoke dp nowMs sp = .failure sp.project := by
      simp [processSpoke, hfile, he]
    exact ⟨hout, by rw [hout]; rfl⟩
  · intro raw es hfile hraw hes
    have hout : processSpoke dp nowMs sp = .failure sp.project := by
      simp [processSpoke, hfile, hraw, hes]
    exact ⟨hout, by rw [hout]; rfl⟩
  · intro raw m hfile hraw hm hsf
    simp [processSpoke, hfile, hraw, hm, hsf]

/-- Witness for C9 amended at a concrete spoke whose manifest decodes but is
schema-invalid: the spoke is recorded as a failure and excluded. -/
theorem pull_partial_failure_isolation_witness :
    src5.hasManifestFile = true ∧
    src5.manifestRaw = Except.ok (Raw.str "garbage") ∧
    vIsOk (pManifest (Raw.str "garbage")) = false ∧
    processSpoke dp0 0 src5 = SpokeOutcome.failure "s5" ∧
    entryOf? (processSpoke dp0 0 src5) = none := by
  refine ⟨rfl, rfl, rfl, ?_⟩
  exact (pull_partial_failure_isolation dp0 0 [] src5).2.2.1
    (Raw.str "garbage") [⟨[], "Expected object"⟩] rfl rfl rfl

/-- C7: on any raw input each of the three document validators either
succeeds with the typed document or fails with a NON-empty violation list;
on object inputs the violation list is exactly the concatenation of every
top-level field's own violations — no field short-circuits any other — and
every violation is tagged with a path headed by the offending field's name
(rendered dotted for display). -/
theorem schema_validation_complete (dp : String → Option Int) (raw : Raw)
    (fs : List (String × Raw)) :
    (pManifest raw ≠ Except.error [] ∧ pStatus dp raw ≠ Except.error [] ∧
      pOperator dp raw ≠ Except.error []) ∧
    errsOf (pManifest (Raw.obj fs)) =
      errsOf (reqField fs "schemaVersion"
          (pStringCheck (fun s => s = "1.0") "Invalid literal value, expected \"1.0\"")) ++
        errsOf (reqField fs "name" (pStringCheck min1 "Project name is required")) ++
        errsOf (reqField fs "hub" (pStringCheck hubShape "Hub must be in org/repo format")) ++
        errsOf (reqField fs "project" (pStringCheck min1 "Project identifier is required")) ++
        errsOf (reqField fs "maintainer"
          (pStringCheck maintainerShape "Maintainer must be a valid GitHub handle")) ++
        errsOf (reqField fs "license"
          (pStringCheck (fun s => s ∈ ACCEPTED_LICENSES) licenseMsg)) ++
        errsOf (reqField fs "identity" pIdentity) ++
        errsOf (defField fs "security" pSecurity ⟨⟨false, false, false, false⟩⟩) ++
        errsOf (optField fs "status" pStatusCfg) ∧
    errsOf (pStatus dp (Raw.obj fs)) =
      errsOf (reqField fs "schemaVersion"
          (pStringCheck (fun s => s = "1.0") "Invalid literal value, expected \"1.0\"")) ++
        errsOf (reqField fs "generatedAt"
          (pStringCheck (fun s => (dp s).isSome)
            "generatedAt must be a valid ISO 8601 timestamp")) ++
        errsOf (reqField fs "generatedBy" (pStringCheck min1 "generatedBy is required")) ++
        errsOf (reqField fs "phase"
          (pStringCheck (fun s => s ∈ LIFECYCLE_PHASES) phaseMsg)) ++
        errsOf (reqField fs "tests" pTests) ++
        errsOf (reqField fs "git" (pGit dp)) ∧
    errsOf (pOperator dp (Raw.obj fs)) =
      errsOf (reqField fs "schemaVersion"
          (pStringCheck (fun s => s = "1.0") "Invalid literal value, expected \"1.0\"")) ++
        errsOf (reqField fs "handle" (pStringCheck min1 "Handle is required")) ++
        errsOf (optField fs "name" pString) ++
        errsOf (reqField fs "signing" pOperatorSigning) ++
        errsOf (defField fs "identities" (pArr (pIdentityEntry dp)) []) ++
        errsOf (defField fs "skills" (pArr pString) []) ++
        errsOf (defField fs "availability"
          (pStringCheck (fun s => s ∈ ["open", "busy", "offline"]) "Invalid enum value")
          "open") ++
        errsOf (defField fs "hives" (pArr (pHiveEntry dp)) []) ∧
    (∀ v ∈ errsOf (pManifest (Raw.obj fs)),
      ∃ k, v.path.head? = some k ∧ k ∈ manifestFields) ∧
    (∀ v ∈ errsOf (pStatus dp (Raw.obj fs)),
      ∃ k, v.path.head? = some k ∧ k ∈ statusFields) ∧
    (∀ v ∈ errsOf (pOperator dp (Raw.obj fs)),
      ∃ k, v.path.head? = some k ∧ k ∈ operatorFields) := by
  refine ⟨⟨totalNE_pManifest raw, totalNE_pStatus dp raw, totalNE_pOperator dp raw⟩,
    ?_, ?_, ?_, ?_, ?_, ?_⟩
  · simp [pManifest]
  · simp [pStatus]
  · simp [pOperator]
  · intro v hv
    simp only [pManifest, errsOf_vmap, errsOf_vpair, List.mem_append] at hv
    rcases hv with ((((((((h | h) | h) | h) | h) | h) | h) | h) | h)
    · exact ⟨"schemaVersion", path_head_of_mem_reqField h, by simp [manifestFields]⟩
    · exact ⟨"name", path_head_of_mem_reqField h, by simp [manifestFields]⟩
    · exact ⟨"hub", path_head_of_mem_reqField h, by simp [manifestFields]⟩
    · exact ⟨"project", path_head_of_mem_reqField h, by simp [manifestFields]⟩
    · exact ⟨"maintainer", path_head_of_mem_reqField h, by simp [manifestFields]⟩
    · exact ⟨"license", path_head_of_mem_reqField h, by simp [manifestFields]⟩
    · exact ⟨"identity", path_head_of_mem_reqField h, by simp [manifestFields]⟩
    · exact ⟨"security", path_head_of_mem_defField h, by simp [manifestFields]⟩
    · exact ⟨"status", path_head_of_mem_optField h, by simp [manifestFields]⟩
  · intro v hv
    simp only [pStatus, errsOf_vmap, errsOf_vpair, List.mem_append] at hv
    rcases hv with (((((h | h) | h) | h) | h) | h)
    · exact ⟨"schemaVersion", path_head_of_mem_reqField h, by simp [statusFields]⟩
    · exact ⟨"generatedAt", path_head_of_mem_reqField h, by simp [statusFields]⟩
    · exact ⟨"generatedBy", path_head_of_mem_reqField h, by simp [statusFields]⟩
    · exact ⟨"phase", path_head_of_mem_reqField h, by simp [statusFields]⟩
    · exact ⟨"tests", path_head_of_mem_reqField h, by simp [statusFields]⟩
    · exact ⟨"git", path_head_of_mem_reqField h, by simp [statusFields]⟩
  · intro v hv
    simp only [pOperator, errsOf_vmap, errsOf_vpair, List.mem_append] at hv
    rcases hv with (((((((h | h) | h) | h) | h) | h) | h) | h)
    · exact ⟨"schemaVersion", path_head_of_mem_reqField h, by simp [operatorFields]⟩
    · exact ⟨"handle", path_head_of_mem_reqField h, by simp [operatorFields]⟩
    · exact ⟨"name", path_head_of_mem_optField h, by simp [operatorFields]⟩
    · exact ⟨"signing", path_head_of_mem_reqField h, by simp [operatorFields]⟩
    · exact ⟨"identities", path_head_of_mem_defField h, by simp [operatorFields]⟩
    · exact ⟨"skills", path_head_of_mem_defField h, by simp [operatorFields]⟩
    · exact ⟨"availability", path_head_of_mem_defField h, by simp [operatorFields]⟩
    · exact ⟨"hives", path_head_of_mem_defField h, by simp [operatorFields]⟩

/-- Witness for C7 at the empty object: the missing-schemaVersion violation
is reported, with its path headed by the offending field. -/
theorem schema_validation_complete_witness :
    (⟨["schemaVersion"], "Required"⟩ : Violation) ∈ errsOf (pManifest (Raw.obj [])) ∧
    ∃ k, (⟨["schemaVersion"], "Required"⟩ : Violation).path.head? = some k ∧
      k ∈ manifestFields := by
  have hmem : (⟨["schemaVersion"], "Required"⟩ : Violation) ∈
      errsOf (pManifest (Raw.obj [])) := by decide
  exact ⟨hmem, (schema_validation_complete dp0 Raw.null []).2.2.2.2.1 _ hmem⟩

/-- C8: a Manifest input missing `hub`, or whose `hub` string fails the
owner/repo shape, or whose `license` string lies outside the fixed
six-element accepted set, or whose `identity.publicKey` string does not
start with `"ssh-ed25519 "`, fails validation with at least one violation
whose path references the offending field. -/
theorem manifest_offending_fields (fs : List (String × Raw)) :
    (getField fs "hub" = none →
      (∃ v ∈ errsOf (pManifest (Raw.obj fs)), v.path = ["hub"]) ∧
      vIsOk (pManifest (Raw.obj fs)) = false) ∧
    (∀ s, getField fs "hub" = some (Raw.str s) → hubShape s = false →
      (∃ v ∈ errsOf (pManifest (Raw.obj fs)), v.path = ["hub"]) ∧
      vIsOk (pManifest (Raw.obj fs)) = false) ∧
    (∀ s, getField fs "license" = some (Raw.str s) → s ∉ ACCEPTED_LICENSES →
      (∃ v ∈ errsOf (pManifest (Raw.obj fs)), v.path = ["license"]) ∧
      vIsOk (pManifest (Raw.obj fs)) = false) ∧
    (∀ ifs s, getField fs "identity" = some (Raw.obj ifs) →
      getField ifs "publicKey" = some (Raw.str s) → edKeyShape s = false →
      (∃ v ∈ errsOf (pManifest (Raw.obj fs)), v.path = ["identity", "publicKey"]) ∧
      vIsOk (pManifest (Raw.obj fs)) = false) := by
  have hmem_of :
      ∀ {v : Violation}, v ∈ errsOf (pManifest (Raw.obj fs)) →
        vIsOk (pManifest (Raw.obj fs)) = false := fun hv => not_ok_of_mem_errsOf hv
  refine ⟨?_, ?_, ?_, ?_⟩
  · intro h
    have hpart : errsOf (reqField fs "hub"
        (pStringCheck hubShape "Hub must be in org/repo format")) =
        [⟨["hub"], "Required"⟩] := errsOf_reqField_none _ h
    have hv : (⟨["hub"], "Required"⟩ : Violation) ∈ errsOf (pManifest (Raw.obj fs)) := by
      simp only [pManifest, errsOf_vmap, errsOf_vpair, List.mem_append, hpart]
      simp
    exact ⟨⟨_, hv, rfl⟩, hmem_of hv⟩
  · intro s hs hbad
    have hpart : errsOf (reqField fs "hub"
        (pStringCheck hubShape "Hub must be in org/repo format")) =
        [⟨["hub"], "Hub must be in org/repo format"⟩] := by
      rw [errsOf_reqField_some _ hs, errsOf_pStringCheck_str, if_neg (by simp [hbad])]
      rfl
    have hv : (⟨["hub"], "Hub must be in org/repo format"⟩ : Violation) ∈
        errsOf (pManifest (Raw.obj fs)) := by
      simp only [pManifest, errsOf_vmap, errsOf_vpair, List.mem_append, hpart]
      simp
    exact ⟨⟨_, hv, rfl⟩, hmem_of hv⟩
  · intro s hs hbad
    have hpart : errsOf (reqField fs "license"
        (pStringCheck (fun s => s ∈ ACCEPTED_LICENSES) licenseMsg)) =
        [⟨["license"], licenseMsg⟩] := by
      rw [errsOf_reqField_some _ hs, errsOf_pStringCheck_str, if_neg (by simp [hbad])]
      rfl
    have hv : (⟨["license"], licenseMsg⟩ : Violation) ∈
        errsOf (pManifest (Raw.obj fs)) := by
      simp only [pManifest, errsOf_vmap, errsOf_vpair, List.mem_append, hpart]
      simp
    exact ⟨⟨_, hv, rfl⟩, hmem_of hv⟩
  · intro ifs s hid hpk hbad
    have hinner : (⟨["publicKey"], "Public key must be an Ed25519 SSH key"⟩ : Violation) ∈
        errsOf (pIdentity (Raw.obj ifs)) := by
      have hpart : errsOf (reqField ifs "publicKey"
          (pStringCheck edKeyShape "Public key must be an Ed25519 SSH key")) =
          [⟨["publicKey"], "Public key must be an Ed25519 SSH key"⟩] := by
        rw [errsOf_reqField_some _ hpk, errsOf_pStringCheck_str, if_neg (by simp [hbad])]
        rfl
      simp only [pIdentity, errsOf_vmap, errsOf_vpair, List.mem_append, hpart]
      simp
    have hv : (⟨["identity", "publicKey"], "Public key must be an Ed25519 SSH key"⟩ :
        Violation) ∈ errsOf (pManifest (Raw.obj fs)) := by
      have houter : errsOf (reqField fs "identity" pIdentity) =
          atPath "identity" (errsOf (pIdentity (Raw.obj ifs))) :=
        errsOf_reqField_some _ hid
      have hin2 : (⟨["identity", "publicKey"], "Public key must be an Ed25519 SSH key"⟩ :
          Violation) ∈ errsOf (reqField fs "identity" pIdentity) := by
        rw [houter]
        exact List.mem_map.mpr ⟨_, hinner, rfl⟩
      simp only [pManifest, errsOf_vmap, errsOf_vpair, List.mem_append]
      tauto
    exact ⟨⟨_, hv, rfl⟩, hmem_of hv⟩

/-- Witness for C8 at the empty object (hub missing) and at a concrete
object with a shape-invalid hub. -/
theorem manifest_offending_fields_witness :
    (getField [] "hub" = none ∧
      (∃ v ∈ errsOf (pManifest (Raw.obj [])), v.path = ["hub"]) ∧
      vIsOk (pManifest (Raw.obj [])) = false) ∧
    (getField [("hub", Raw.str "nohub")] "hub" = some (Raw.str "nohub") ∧
      hubShape "nohub" = false ∧
      (∃ v ∈ errsOf (pManifest (Raw.obj [("hub", Raw.str "nohub")])), v.path = ["hub"]) ∧
      vIsOk (pManifest (Raw.obj [("hub", Raw.str "nohub")])) = false) := by
  constructor
  · exact ⟨rfl, (manifest_offending_fields []).1 rfl⟩
  · refine ⟨rfl, by decide, ?_⟩
    exact (manifest_offending_fields [("hub", Raw.str "nohub")]).2.1 "nohub" rfl (by decide)

end HiveSpoke
